import Mathlib

/-!
Verification development for the pokerGTO repository core:
card model, 7-card hand evaluator, board-texture analyzer,
Monte-Carlo equity calculator and postflop recommendation engine.

Numbers that are IEEE doubles in the source are modelled as exact
rationals; `Math.random`-driven choices are modelled as explicit oracle
parameters (a shuffle function per iteration, an index choice per
iteration), and `Math.sqrt` as an abstract function parameter, so that
everything stays executable and the stated properties quantify over all
possible outcomes of the randomness.
-/

/-- Suits, from the card model (`Suit = 's' | 'h' | 'd' | 'c'`). -/
inductive Suit where
  | s | h | d | c
deriving DecidableEq

/-- Ranks, from the card model (`Rank = 'A' | 'K' | ... | '2'`). -/
inductive Rank where
  | A | K | Q | J | T | r9 | r8 | r7 | r6 | r5 | r4 | r3 | r2
deriving DecidableEq

/-- `RANK_VALUES` from the card model: A=14 down to 2=2. -/
def RANK_VALUES : Rank → Nat
  | .A => 14 | .K => 13 | .Q => 12 | .J => 11 | .T => 10
  | .r9 => 9 | .r8 => 8 | .r7 => 7 | .r6 => 6 | .r5 => 5
  | .r4 => 4 | .r3 => 3 | .r2 => 2

/-- A card is a rank paired with a suit. -/
structure Card where
  rank : Rank
  suit : Suit
deriving DecidableEq

/-- Numeric value of a card's rank (`RANK_VALUES[c.rank]`). -/
def rankVal (c : Card) : Nat := RANK_VALUES c.rank

/-- `RANKS` constant from the card model. -/
def RANKS : List Rank :=
  [.A, .K, .Q, .J, .T, .r9, .r8, .r7, .r6, .r5, .r4, .r3, .r2]

/-- `SUITS` constant from the card model. -/
def SUITS : List Suit := [.s, .h, .d, .c]

/-- `createDeck()`: all 52 cards, suit-major then rank order. -/
def createDeck : List Card :=
  SUITS.flatMap (fun st => RANKS.map (fun r => ⟨r, st⟩))

/-- `cardsEqual(a, b)`: structural equality of cards. -/
def cardsEqual (a b : Card) : Bool := a == b

/-- `removeCards(deck, cardsToRemove)`: keep the cards that are not
structurally equal to any card in the removal list. -/
def removeCards (deck cardsToRemove : List Card) : List Card :=
  deck.filter (fun card => !(cardsToRemove.any (fun rem => cardsEqual card rem)))

/-! ### Stable sorting and first-occurrence deduplication

The source relies on JavaScript's stable `Array.prototype.sort` with a
descending numeric comparator, on `Map` iteration in insertion order and
on `Set` keeping first occurrences.  The following helpers reproduce
those semantics. -/

/-- Insert `x` into `l` before the first element whose key is strictly
smaller, i.e. after every element with an equal or larger key; this is
the insertion step of a stable descending sort. -/
def insertDescBy (k : α → Nat) (x : α) : List α → List α
  | [] => [x]
  | y :: ys => if k y < k x then x :: y :: ys else y :: insertDescBy k x ys

/-- Stable sort in descending key order (insertion sort). -/
def sortDescBy (k : α → Nat) (l : List α) : List α :=
  l.foldl (fun acc x => insertDescBy k x acc) []

/-- Deduplication keeping first occurrences, as `[...new Set(l)]` does. -/
def dedupKeepFirst (l : List Nat) : List Nat :=
  l.foldl (fun acc x => if x ∈ acc then acc else acc ++ [x]) []

/-! ### Hand evaluator (`handEvaluator.ts`) -/

/-- The ten hand categories, in ascending order of quality. -/
inductive HandRank where
  | high_card | pair | two_pair | three_of_a_kind | straight
  | flush | full_house | four_of_a_kind | straight_flush | royal_flush
deriving DecidableEq

/-- `HAND_RANK_VALUES`: numeric value 1–10 of each category. -/
def HAND_RANK_VALUES : HandRank → Nat
  | .high_card => 1
  | .pair => 2
  | .two_pair => 3
  | .three_of_a_kind => 4
  | .straight => 5
  | .flush => 6
  | .full_house => 7
  | .four_of_a_kind => 8
  | .straight_flush => 9
  | .royal_flush => 10

/-- `HandEvaluation` result record.  `strength` is modelled as an exact
rational. -/
structure HandEvaluation where
  rank : HandRank
  rankValue : Nat
  strength : ℚ
  description : String
  kickers : List Rank
  madeHand : List Card
deriving DecidableEq

/-- Display name of a rank, for descriptions. -/
def rankStr : Rank → String
  | .A => "A" | .K => "K" | .Q => "Q" | .J => "J" | .T => "T"
  | .r9 => "9" | .r8 => "8" | .r7 => "7" | .r6 => "6" | .r5 => "5"
  | .r4 => "4" | .r3 => "3" | .r2 => "2"

/-- `countRanks(cards)`: occurrence count per rank, as an association
list in first-occurrence order (JS `Map` preserves insertion order). -/
def countRanks (cards : List Card) : List (Rank × Nat) :=
  cards.foldl
    (fun counts card =>
      if counts.any (fun p => p.1 == card.rank) then
        counts.map (fun p => if p.1 == card.rank then (p.1, p.2 + 1) else p)
      else counts ++ [(card.rank, 1)])
    []

/-- `countSuits(cards)` from the evaluator: the cards of each suit, as an
association list in first-occurrence order, each suit's cards in input
order. -/
def countSuits (cards : List Card) : List (Suit × List Card) :=
  cards.foldl
    (fun suitsAcc card =>
      if suitsAcc.any (fun p => p.1 == card.suit) then
        suitsAcc.map (fun p =>
          if p.1 == card.suit then (p.1, p.2 ++ [card]) else p)
      else suitsAcc ++ [(card.suit, [card])])
    []

/-- Default card used to stand for JavaScript `undefined` when indexing a
list that is in fact nonempty on every reachable path. -/
def defaultCard : Card := ⟨.A, .s⟩

/-- `findStraight(cards)`: wheel check first, then the first (highest)
5-window of the descending unique rank values whose extremes differ by 4;
the returned cards are the first five input cards whose rank value lies
in the window. -/
def findStraight (cards : List Card) : Option (List Card) :=
  let uniqueRanks := sortDescBy id (dedupKeepFirst (cards.map rankVal))
  if 14 ∈ uniqueRanks ∧ 2 ∈ uniqueRanks ∧ 3 ∈ uniqueRanks ∧
      4 ∈ uniqueRanks ∧ 5 ∈ uniqueRanks then
    some ((cards.filter (fun c => rankVal c ∈ ([14, 2, 3, 4, 5] : List Nat))).take 5)
  else
    match (List.range (uniqueRanks.length - 4)).find?
        (fun i => uniqueRanks.getD i 0 = uniqueRanks.getD (i + 4) 0 + 4) with
    | some i =>
      let straightValues := (uniqueRanks.drop i).take 5
      some ((cards.filter (fun c => rankVal c ∈ straightValues)).take 5)
    | none => none

/-- `findFlush(cards)`: first suit holding at least five cards, its cards
sorted by descending rank, truncated to five. -/
def findFlush (cards : List Card) : Option (List Card) :=
  match (countSuits cards).find? (fun p => 5 ≤ p.2.length) with
  | some p => some ((sortDescBy rankVal p.2).take 5)
  | none => none

/-- `evaluatePartialHand(holeCards, board)`: best-effort classification
with fewer than five cards. -/
def evaluatePartialHand (holeCards board : List Card) : HandEvaluation :=
  let allCards := holeCards ++ board
  let rankCounts := countRanks allCards
  let start : Nat × Rank := (1, (allCards.headD defaultCard).rank)
  let mr := rankCounts.foldl
    (fun (acc : Nat × Rank) p =>
      if p.2 > acc.1 ∨ (p.2 = acc.1 ∧ RANK_VALUES p.1 > RANK_VALUES acc.2) then
        (p.2, p.1)
      else acc)
    start
  let maxCount := mr.1
  let maxRank := mr.2
  if maxCount = 4 then
    { rank := .four_of_a_kind, rankValue := 8, strength := 0.9,
      description := "Four of a Kind, " ++ rankStr maxRank ++ "s",
      kickers := [], madeHand := allCards }
  else if maxCount = 3 then
    { rank := .three_of_a_kind, rankValue := 4,
      strength := 0.5 + ((RANK_VALUES maxRank : ℚ) / 14) * 0.1,
      description := "Three of a Kind, " ++ rankStr maxRank ++ "s",
      kickers := [], madeHand := allCards }
  else if 2 ≤ (rankCounts.filter (fun p => 2 ≤ p.2)).length then
    { rank := .two_pair, rankValue := 3, strength := 0.35,
      description := "Two Pair", kickers := [], madeHand := allCards }
  else if maxCount = 2 then
    { rank := .pair, rankValue := 2,
      strength := 0.2 + ((RANK_VALUES maxRank : ℚ) / 14) * 0.12,
      description := "Pair of " ++ rankStr maxRank ++ "s",
      kickers := [], madeHand := allCards }
  else
    -- `allCards.sort(...)[0]` is `undefined` on an empty list, in which
    -- case the source falls back to rank 'A' (value 14).
    match sortDescBy rankVal allCards with
    | [] =>
      { rank := .high_card, rankValue := 1,
        strength := 0.05 + ((14 : ℚ) / 14) * 0.12,
        description := "High Card", kickers := [], madeHand := allCards }
    | highCard :: _ =>
      { rank := .high_card, rankValue := 1,
        strength := 0.05 + ((rankVal highCard : ℚ) / 14) * 0.12,
        description := "High Card, " ++ rankStr highCard.rank,
        kickers := [], madeHand := allCards }

/-- `evaluateHand(holeCards, board)`: best five-card hand from the
combined cards, translated branch for branch from the source; the
source's early returns become nested matches. -/
def evaluateHand (holeCards board : List Card) : HandEvaluation :=
  let allCards := holeCards ++ board
  if allCards.length < 5 then evaluatePartialHand holeCards board else
  let rankCounts := countRanks allCards
  let flush := findFlush allCards
  let straight := findStraight allCards
  -- straight flush / royal flush
  let sfRes : Option HandEvaluation :=
    match flush with
    | none => none
    | some fl =>
      match findStraight fl with
      | none => none
      | some straightInFlush =>
        let highCard := rankVal (straightInFlush.headD defaultCard)
        if highCard = 14 then
          some { rank := .royal_flush, rankValue := 10, strength := 1.0,
                 description := "Royal Flush", kickers := [],
                 madeHand := straightInFlush }
        else
          some { rank := .straight_flush, rankValue := 9,
                 strength := 0.95 + ((highCard : ℚ) / 14) * 0.04,
                 description := "Straight Flush, " ++
                   rankStr (straightInFlush.headD defaultCard).rank ++ " high",
                 kickers := [], madeHand := straightInFlush }
  match sfRes with
  | some r => r
  | none =>
  -- four of a kind
  match rankCounts.find? (fun p => p.2 == 4) with
  | some q =>
    let quads := allCards.filter (fun c => c.rank == q.1)
    let kicker := (sortDescBy rankVal
      (allCards.filter (fun c => !(c.rank == q.1)))).headD defaultCard
    { rank := .four_of_a_kind, rankValue := 8,
      strength := 0.9 + ((RANK_VALUES q.1 : ℚ) / 14) * 0.05,
      description := "Four of a Kind, " ++ rankStr q.1 ++ "s",
      kickers := [kicker.rank], madeHand := quads ++ [kicker] }
  | none =>
  -- full house search: highest group of three or more as trips, the next
  -- two-or-better group as the pair
  let sortedRanks := sortDescBy (fun p => RANK_VALUES p.1) rankCounts
  let tp : Option Rank × Option Rank := sortedRanks.foldl
    (fun (acc : Option Rank × Option Rank) p =>
      if 3 ≤ p.2 ∧ acc.1 = none then (some p.1, acc.2)
      else if 2 ≤ p.2 ∧ acc.2 = none then (acc.1, some p.1)
      else acc)
    (none, none)
  match tp with
  | (some trips, some pair) =>
    let tripCards := (allCards.filter (fun c => c.rank == trips)).take 3
    let pairCards := (allCards.filter (fun c => c.rank == pair)).take 2
    { rank := .full_house, rankValue := 7,
      strength := 0.85 + ((RANK_VALUES trips : ℚ) / 14) * 0.04,
      description := "Full House, " ++ rankStr trips ++ "s full of " ++
        rankStr pair ++ "s",
      kickers := [], madeHand := tripCards ++ pairCards }
  | _ =>
  -- flush
  match flush with
  | some fl =>
    { rank := .flush, rankValue := 6,
      strength := 0.75 + ((rankVal (fl.headD defaultCard) : ℚ) / 14) * 0.08,
      description := "Flush, " ++ rankStr (fl.headD defaultCard).rank ++ " high",
      kickers := (fl.drop 1).map (·.rank), madeHand := fl }
  | none =>
  -- straight
  match straight with
  | some st =>
    { rank := .straight, rankValue := 5,
      strength := 0.65 + ((rankVal (st.headD defaultCard) : ℚ) / 14) * 0.08,
      description := "Straight, " ++ rankStr (st.headD defaultCard).rank ++ " high",
      kickers := [], madeHand := st }
  | none =>
  -- three of a kind
  match tp.1 with
  | some trips =>
    let tripCards := (allCards.filter (fun c => c.rank == trips)).take 3
    let kickers := (sortDescBy rankVal
      (allCards.filter (fun c => !(c.rank == trips)))).take 2
    { rank := .three_of_a_kind, rankValue := 4,
      strength := 0.5 + ((RANK_VALUES trips : ℚ) / 14) * 0.1,
      description := "Three of a Kind, " ++ rankStr trips ++ "s",
      kickers := kickers.map (·.rank), madeHand := tripCards ++ kickers }
  | none =>
  -- two pair / one pair / high card
  let pairs := (sortedRanks.filter (fun p => 2 ≤ p.2)).map (·.1)
  if 2 ≤ pairs.length then
    let topPairs := pairs.take 2
    let pairCards := (allCards.filter (fun c => c.rank ∈ topPairs)).take 4
    let kicker := (sortDescBy rankVal
      (allCards.filter (fun c => c.rank ∉ topPairs))).headD defaultCard
    { rank := .two_pair, rankValue := 3,
      strength := 0.35 + ((RANK_VALUES (topPairs.headD .A) : ℚ) / 14) * 0.1,
      description := "Two Pair, " ++ rankStr (topPairs.headD .A) ++ "s and " ++
        rankStr ((topPairs.drop 1).headD .A) ++ "s",
      kickers := [kicker.rank], madeHand := pairCards ++ [kicker] }
  else if pairs.length = 1 then
    let pairRank := pairs.headD .A
    let pairCards := (allCards.filter (fun c => c.rank == pairRank)).take 2
    let kickers := (sortDescBy rankVal
      (allCards.filter (fun c => !(c.rank == pairRank)))).take 3
    { rank := .pair, rankValue := 2,
      strength := 0.2 + ((RANK_VALUES pairRank : ℚ) / 14) * 0.12,
      description := "Pair of " ++ rankStr pairRank ++ "s",
      kickers := kickers.map (·.rank), madeHand := pairCards ++ kickers }
  else
    let highCards := (sortDescBy rankVal allCards).take 5
    { rank := .high_card, rankValue := 1,
      strength := 0.05 + ((rankVal (highCards.headD defaultCard) : ℚ) / 14) * 0.12,
      description := "High Card, " ++ rankStr (highCards.headD defaultCard).rank,
      kickers := (highCards.drop 1).map (·.rank), madeHand := highCards }

/-! ### Board texture analyzer -/

/-- Danger classification of a board. -/
inductive DangerLevel where
  | safe | moderate | dangerous
deriving DecidableEq

/-- Result of `countStraightDraws`. -/
structure StraightDraws where
  openEnded : Bool
  gutshot : Bool
  straight : Bool
deriving DecidableEq

/-- `BoardTexture` record.  `wetness` is modelled as an exact rational. -/
structure BoardTexture where
  wetness : ℚ
  isPaired : Bool
  isTrips : Bool
  isMonotone : Bool
  isTwoTone : Bool
  isRainbow : Bool
  hasOpenEndedDraw : Bool
  hasGutshot : Bool
  hasStraightPossible : Bool
  hasFlushDraw : Bool
  hasFlushPossible : Bool
  highCard : Rank
  hasAce : Bool
  hasBroadway : Bool
  broadwayCount : Nat
  textureLabel : String
  dangerLevel : DangerLevel
deriving DecidableEq

/-- `BROADWAY_RANKS` constant. -/
def BROADWAY_RANKS : List Rank := [.A, .K, .Q, .J, .T]

/-- Adjacent-difference scan of `areConnected`: some neighbouring pair of
the (descending) list is within `maxGap`.  JavaScript compares
`sorted[i] - sorted[i+1] <= maxGap`; on the descending lists this is
applied to, truncated natural subtraction agrees with it. -/
def hasAdjGap : List Nat → Nat → Bool
  | a :: b :: rest, maxGap => (a - b ≤ maxGap) || hasAdjGap (b :: rest) maxGap
  | _, _ => false

/-- `areConnected(ranks, maxGap)`: sort descending, look for a
neighbouring pair within the gap, then the wheel-adjacency check
(an Ace together with a rank of at most five). -/
def areConnected (ranks : List Nat) (maxGap : Nat) : Bool :=
  let sorted := sortDescBy id ranks
  hasAdjGap sorted maxGap ||
    (decide (14 ∈ sorted) && sorted.any (fun r => r ≤ 5))

/-- One window update of `countStraightDraws`: count the window members
present among the unique ranks and latch the corresponding flag. -/
def drawsStep (uniqueRanks : List Nat) (acc : StraightDraws)
    (window : List Nat) : StraightDraws :=
  let matchCount := (window.filter (fun r => r ∈ uniqueRanks)).length
  if 5 ≤ matchCount then { acc with straight := true }
  else if 4 ≤ matchCount then { acc with openEnded := true }
  else if 3 ≤ matchCount then { acc with gutshot := true }
  else acc

/-- `countStraightDraws(rankValues)`: scan every 5-card window from
A-high down to 5-high, then the wheel window. -/
def countStraightDraws (rankValues : List Nat) : StraightDraws :=
  let uniqueRanks := sortDescBy id (dedupKeepFirst rankValues)
  let afterWindows := (List.range 10).foldl
    (fun acc k =>
      drawsStep uniqueRanks acc [14 - k, 13 - k, 12 - k, 11 - k, 10 - k])
    ⟨false, false, false⟩
  drawsStep uniqueRanks afterWindows [14, 2, 3, 4, 5]

/-- `countSuits(cards)` of the analyzer module: occurrence count per
suit, in first-occurrence order.  (The analyzer and the evaluator each
define their own `countSuits`; this is the counting one.) -/
def countSuitsNum (cards : List Card) : List (Suit × Nat) :=
  cards.foldl
    (fun counts card =>
      if counts.any (fun p => p.1 == card.suit) then
        counts.map (fun p => if p.1 == card.suit then (p.1, p.2 + 1) else p)
      else counts ++ [(card.suit, 1)])
    []

/-- `generateTextureLabel(...)` descriptive string. -/
def generateTextureLabel (isPaired isTrips isMonotone isTwoTone : Bool)
    (draws : StraightDraws) (connected : Bool) (highCard : Rank)
    (broadwayCount : Nat) : String :=
  let part1 :=
    if 2 ≤ broadwayCount then "Broadway"
    else if 10 ≤ RANK_VALUES highCard then rankStr highCard ++ "-high"
    else "Low"
  let part2 :=
    if isMonotone then "Monotone" else if isTwoTone then "Two-tone" else "Rainbow"
  let pairParts : List String :=
    if isTrips then ["Trips"] else if isPaired then ["Paired"] else []
  let part4 :=
    if draws.straight then "Straight possible"
    else if connected then "Connected" else "Disconnected"
  String.intercalate ", " ([part1, part2] ++ pairParts ++ [part4])

/-- `getEmptyTexture()`: canonical texture for boards of fewer than
three cards. -/
def getEmptyTexture : BoardTexture :=
  { wetness := 0, isPaired := false, isTrips := false, isMonotone := false,
    isTwoTone := false, isRainbow := true, hasOpenEndedDraw := false,
    hasGutshot := false, hasStraightPossible := false, hasFlushDraw := false,
    hasFlushPossible := false, highCard := .A, hasAce := false,
    hasBroadway := false, broadwayCount := 0, textureLabel := "No board",
    dangerLevel := .safe }

/-- `analyzeBoard(board)`. -/
def analyzeBoard (board : List Card) : BoardTexture :=
  if board.length < 3 then getEmptyTexture else
  let rankValues := board.map rankVal
  let suitCounts := countSuitsNum board
  let rankCounts := countRanks board
  let maxRankCount := (rankCounts.map (·.2)).foldl max 0
  let isPaired : Bool := 2 ≤ maxRankCount
  let isTrips : Bool := 3 ≤ maxRankCount
  let maxSuitCount := (suitCounts.map (·.2)).foldl max 0
  let isMonotone : Bool := 3 ≤ maxSuitCount ∧ board.length = 3
  let isTwoTone : Bool := maxSuitCount = 2 ∧ board.length = 3
  let isRainbow : Bool :=
    maxSuitCount = 1 ∨ (board.length = 3 ∧ suitCounts.length = 3)
  let hasFlushDraw : Bool := 2 ≤ maxSuitCount
  let hasFlushPossible : Bool := 3 ≤ maxSuitCount
  let draws := countStraightDraws rankValues
  let connected := areConnected rankValues 2
  -- `board.reduce(...)`: seed with the first card, keep the earlier card
  -- on rank ties
  let highCard := ((board.drop 1).foldl
    (fun high card => if RANK_VALUES card.rank > RANK_VALUES high.rank
      then card else high)
    (board.headD defaultCard)).rank
  let hasAce := board.any (fun c => c.rank == Rank.A)
  let broadwayCards := board.filter (fun c => c.rank ∈ BROADWAY_RANKS)
  let hasBroadway := 0 < broadwayCards.length
  let broadwayCount := broadwayCards.length
  let w1 : ℚ := if isMonotone then 0.35 else if isTwoTone then 0.15 else 0
  let w2 := if draws.straight then w1 + 0.25
    else if draws.openEnded then w1 + 0.2
    else if draws.gutshot then w1 + 0.1 else w1
  let w3 := if connected then w2 + 0.1 else w2
  let w4 := if isPaired then w3 - 0.15 else w3
  let w5 := if isTrips then w4 - 0.25 else w4
  let w6 := w5 + ((broadwayCount : ℚ) / (board.length : ℚ)) * 0.15
  let wetness := max 0 (min 1 w6)
  let textureLabel := generateTextureLabel isPaired isTrips isMonotone
    isTwoTone draws connected highCard broadwayCount
  let dangerLevel : DangerLevel :=
    if decide (wetness ≥ 0.5) || isMonotone || draws.straight then .dangerous
    else if decide (wetness ≥ 0.25) || isTwoTone || draws.openEnded then .moderate
    else .safe
  { wetness, isPaired, isTrips, isMonotone, isTwoTone, isRainbow,
    hasOpenEndedDraw := draws.openEnded, hasGutshot := draws.gutshot,
    hasStraightPossible := draws.straight, hasFlushDraw, hasFlushPossible,
    highCard, hasAce, hasBroadway, broadwayCount, textureLabel, dangerLevel }

/-! ### Postflop recommendation engine -/

/-- Possible recommended actions. -/
inductive PAction where
  | bet | check | raise | call | fold
deriving DecidableEq

/-- Bet sizing tiers. -/
inductive Sizing where
  | small | medium | large
deriving DecidableEq

/-- Position relative to the opponent. -/
inductive Position where
  | IP | OOP
deriving DecidableEq

/-- Streets. -/
inductive Street where
  | flop | turn | river
deriving DecidableEq

/-- Recommendation record.  The `reasoning` string of the source is pure
presentation text interpolated from the other data and is omitted from
the model; `action`, `sizing` and `confidence` are kept. -/
structure Recommendation where
  action : PAction
  sizing : Option Sizing
  confidence : ℚ
deriving DecidableEq

/-- `getPostflopRecommendation(handStrength, boardTexture, position,
street, facingBet)`: the rule table, branch for branch. -/
def getPostflopRecommendation (handStrength : ℚ)
    (boardTexture : BoardTexture) (position : Position) (street : Street)
    (facingBet : Bool) : Recommendation :=
  if facingBet then
    if handStrength ≥ 0.85 then ⟨.raise, some .large, 0.9⟩
    else if handStrength ≥ 0.65 then
      if boardTexture.dangerLevel = .safe then ⟨.raise, some .medium, 0.75⟩
      else ⟨.call, none, 0.8⟩
    else if handStrength ≥ 0.45 then
      if street = .river ∧ boardTexture.dangerLevel = .dangerous then
        ⟨.fold, none, 0.55⟩
      else ⟨.call, none, 0.65⟩
    else if handStrength ≥ 0.25 then
      if boardTexture.hasFlushPossible ∨ boardTexture.hasStraightPossible then
        ⟨.call, none, 0.5⟩
      else if street = .river then ⟨.fold, none, 0.7⟩
      else ⟨.fold, none, 0.6⟩
    else if boardTexture.hasFlushPossible ∨ boardTexture.hasStraightPossible then
      ⟨.call, none, 0.45⟩
    else ⟨.fold, none, 0.75⟩
  else
    if handStrength ≥ 0.85 then
      ⟨.bet, some (if boardTexture.wetness > 0.4 then .large else .medium), 0.9⟩
    else if handStrength ≥ 0.65 then
      if boardTexture.dangerLevel = .dangerous ∧ street ≠ .river then
        ⟨.bet, some .large, 0.8⟩
      else ⟨.bet, some .medium, 0.85⟩
    else if handStrength ≥ 0.45 then
      if boardTexture.dangerLevel = .dangerous then
        if position = .IP then ⟨.check, none, 0.6⟩
        else ⟨.bet, some .small, 0.55⟩
      else ⟨.bet, some (if boardTexture.isPaired then .small else .medium), 0.7⟩
    else if handStrength ≥ 0.25 then
      if position = .IP then ⟨.check, none, 0.7⟩
      else if boardTexture.wetness < 0.3 ∧ ¬boardTexture.hasFlushPossible ∧
          ¬boardTexture.hasStraightPossible then
        ⟨.bet, some .small, 0.5⟩
      else ⟨.check, none, 0.65⟩
    else if position = .OOP ∧ street = .flop ∧ boardTexture.wetness > 0.4 then
      ⟨.check, none, 0.75⟩
    else if boardTexture.hasFlushPossible ∨ boardTexture.hasStraightPossible then
      ⟨.bet, some .medium, 0.4⟩
    else ⟨.check, none, 0.6⟩

/-- Aggressiveness ranking of actions used by the monotonicity property:
fold < check < call < bet < raise. -/
def aggr : PAction → Nat
  | .fold => 0
  | .check => 1
  | .call => 2
  | .bet => 3
  | .raise => 4

/-! ### Equity calculator

`Math.random` appears in two ways: shuffling the remaining deck each
iteration and picking a combo index from the expanded range.  Both are
modelled as explicit oracle parameters (`shuffle`, `pick`), so the
theorems quantify over every possible outcome of the randomness.
`Math.sqrt` (used only for the confidence heuristic) is modelled as an
abstract parameter `sqrtA`. -/

/-- `EquityResult` record. -/
structure EquityResult where
  equity : ℚ
  wins : Nat
  ties : Nat
  losses : Nat
  samples : Nat
  confidence : ℚ
deriving DecidableEq

/-- `compareHands(hand1, hand2, board)`: 1 / -1 / 0 by rank value, then
by strength. -/
def compareHands (hand1 hand2 board : List Card) : Int :=
  let eval1 := evaluateHand hand1 board
  let eval2 := evaluateHand hand2 board
  if eval1.rankValue > eval2.rankValue then 1
  else if eval1.rankValue < eval2.rankValue then -1
  else if eval1.strength > eval2.strength then 1
  else if eval1.strength < eval2.strength then -1
  else 0

/-- Win/tie/loss counters of the Monte-Carlo loops. -/
structure Tally where
  wins : Nat
  ties : Nat
  losses : Nat
deriving DecidableEq

/-- One iteration of the vs.-random loop: shuffle, deal two villain
cards, complete the board, compare, bump one counter. -/
def vsRandomStep (shuffle : Nat → List Card → List Card)
    (heroHand board remainingDeck : List Card) (cardsNeeded : Nat)
    (acc : Tally) (i : Nat) : Tally :=
  let shuffled := shuffle i remainingDeck
  let villainHand := shuffled.take 2
  let runout := (shuffled.drop 2).take cardsNeeded
  let fullBoard := board ++ runout
  let result := compareHands heroHand villainHand fullBoard
  if result > 0 then { acc with wins := acc.wins + 1 }
  else if result < 0 then { acc with losses := acc.losses + 1 }
  else { acc with ties := acc.ties + 1 }

/-- The vs.-random iteration loop. -/
def vsRandomLoop (shuffle : Nat → List Card → List Card)
    (heroHand board remainingDeck : List Card) (cardsNeeded iterations : Nat) :
    Tally :=
  (List.range iterations).foldl
    (vsRandomStep shuffle heroHand board remainingDeck cardsNeeded)
    ⟨0, 0, 0⟩

/-- `calculateEquityVsRandom(heroHand, board, iterations)`. -/
def calculateEquityVsRandom (sqrtA : ℚ → ℚ)
    (shuffle : Nat → List Card → List Card)
    (heroHand board : List Card) (iterations : Nat) : EquityResult :=
  let knownCards := heroHand ++ board
  let remainingDeck := removeCards createDeck knownCards
  let cardsNeeded := 5 - board.length
  let t := vsRandomLoop shuffle heroHand board remainingDeck cardsNeeded iterations
  let equity : ℚ := ((t.wins : ℚ) + (t.ties : ℚ) * 0.5) / (iterations : ℚ)
  let stdError := sqrtA ((equity * (1 - equity)) / (iterations : ℚ))
  let confidence := 1 - 2 * stdError
  { equity, wins := t.wins, ties := t.ties, losses := t.losses,
    samples := iterations, confidence := max 0 (min 1 confidence) }

/-- `isBlocked(combo, blockers)`. -/
def isBlocked (combo blockers : List Card) : Bool :=
  combo.any (fun card =>
    blockers.any (fun blocker =>
      blocker.rank == card.rank && blocker.suit == card.suit))

/-- Rank character of a hand token ('A', 'K', ..., '2').  The source
casts the character unchecked; malformed tokens are outside the caller
contract, and the fallback value here is arbitrary. -/
def charToRank : Char → Rank
  | 'A' => .A | 'K' => .K | 'Q' => .Q | 'J' => .J | 'T' => .T
  | '9' => .r9 | '8' => .r8 | '7' => .r7 | '6' => .r6 | '5' => .r5
  | '4' => .r4 | '3' => .r3 | _ => .r2

/-- `expandRange(range, blockers)`: pocket pairs give the six distinct
suit pairs, suited tokens four combos, offsuit tokens twelve; combos
sharing a card with a blocker are dropped. -/
def expandRange (range : List String) (blockers : List Card) :
    List (List Card) :=
  range.flatMap (fun hand =>
    if hand.length = 2 then
      let rank := charToRank (hand.toList.getD 0 'A')
      ((List.range 4).flatMap (fun i =>
        ((List.range 4).drop (i + 1)).map (fun j =>
          [⟨rank, SUITS.getD i .s⟩, ⟨rank, SUITS.getD j .s⟩]))).filter
        (fun combo => !isBlocked combo blockers)
    else if hand.length = 3 then
      let rank1 := charToRank (hand.toList.getD 0 'A')
      let rank2 := charToRank (hand.toList.getD 1 'A')
      let suited := hand.toList.getD 2 ' ' = 's'
      if suited then
        (SUITS.map (fun st => [⟨rank1, st⟩, ⟨rank2, st⟩])).filter
          (fun combo => !isBlocked combo blockers)
      else
        (SUITS.flatMap (fun suit1 =>
          (SUITS.filter (fun suit2 => suit2 ≠ suit1)).map (fun suit2 =>
            [⟨rank1, suit1⟩, ⟨rank2, suit2⟩]))).filter
          (fun combo => !isBlocked combo blockers)
    else [])

/-- Counters of the vs.-range loop, including the valid-sample count. -/
structure TallyV where
  wins : Nat
  ties : Nat
  losses : Nat
  valid : Nat
deriving DecidableEq

/-- One iteration of the vs.-range loop: pick a combo from the expanded
range, skip it if it overlaps a known card, otherwise complete the board
and tally. -/
def vsRangeStep (shuffle : Nat → List Card → List Card) (pick : Nat → Nat)
    (heroHand board knownCards remainingDeck : List Card)
    (expandedRange : List (List Card)) (cardsNeeded : Nat)
    (acc : TallyV) (i : Nat) : TallyV :=
  let villainHand := expandedRange.getD (pick i) []
  if villainHand.any (fun vc => knownCards.any (fun kc =>
      kc.rank == vc.rank && kc.suit == vc.suit)) then
    acc
  else
    let deckAfterVillain := removeCards remainingDeck villainHand
    let shuffled := shuffle i deckAfterVillain
    let runout := shuffled.take cardsNeeded
    let fullBoard := board ++ runout
    let result := compareHands heroHand villainHand fullBoard
    if result > 0 then { acc with wins := acc.wins + 1, valid := acc.valid + 1 }
    else if result < 0 then
      { acc with losses := acc.losses + 1, valid := acc.valid + 1 }
    else { acc with ties := acc.ties + 1, valid := acc.valid + 1 }

/-- The vs.-range iteration loop. -/
def vsRangeLoop (shuffle : Nat → List Card → List Card) (pick : Nat → Nat)
    (heroHand board knownCards remainingDeck : List Card)
    (expandedRange : List (List Card)) (cardsNeeded iterations : Nat) :
    TallyV :=
  (List.range iterations).foldl
    (vsRangeStep shuffle pick heroHand board knownCards remainingDeck
      expandedRange cardsNeeded)
    ⟨0, 0, 0, 0⟩

/-- `calculateEquityVsRange(heroHand, board, villainRange, iterations)`:
falls back to vs.-random on an empty range, an empty expansion, or zero
valid samples. -/
def calculateEquityVsRange (sqrtA : ℚ → ℚ)
    (shuffle : Nat → List Card → List Card) (pick : Nat → Nat)
    (heroHand board : List Card) (villainRange : List String)
    (iterations : Nat) : EquityResult :=
  if villainRange.length = 0 then
    calculateEquityVsRandom sqrtA shuffle heroHand board iterations
  else
    let knownCards := heroHand ++ board
    let remainingDeck := removeCards createDeck knownCards
    let cardsNeeded := 5 - board.length
    let expandedRange := expandRange villainRange knownCards
    if expandedRange.length = 0 then
      calculateEquityVsRandom sqrtA shuffle heroHand board iterations
    else
      let t := vsRangeLoop shuffle pick heroHand board knownCards
        remainingDeck expandedRange cardsNeeded iterations
      if t.valid = 0 then
        calculateEquityVsRandom sqrtA shuffle heroHand board iterations
      else
        let equity : ℚ := ((t.wins : ℚ) + (t.ties : ℚ) * 0.5) / (t.valid : ℚ)
        let stdError := sqrtA ((equity * (1 - equity)) / (t.valid : ℚ))
        let confidence := 1 - 2 * stdError
        { equity, wins := t.wins, ties := t.ties, losses := t.losses,
          samples := t.valid, confidence := max 0 (min 1 confidence) }


/-! ### Claim C1: straight-flush / royal-flush detection -/

/-- Claim C1 fails on the code: the claim demands that whenever five
cards of one suit form a run the result is `straight_flush`, with
`royal_flush` reserved for the ace-high T-J-Q-K-A run.  The evaluator,
however, only searches for a run inside the five highest cards of the
flush suit, so holding A♥K♥ on the board 9♥8♥7♥6♥5♥ — where
9-8-7-6-5 of hearts is a straight flush — is classified a mere `flush`;
and the steel wheel A♥2♥3♥4♥5♥ (run with high card 5) is classified
`royal_flush` with strength 1 because the ace heads the suit-sorted
run. -/
theorem evaluateHand_straight_flush_bug :
    (evaluateHand [⟨.A, .h⟩, ⟨.K, .h⟩]
        [⟨.r9, .h⟩, ⟨.r8, .h⟩, ⟨.r7, .h⟩, ⟨.r6, .h⟩, ⟨.r5, .h⟩]).rank
      = HandRank.flush ∧
    (evaluateHand [⟨.A, .h⟩, ⟨.r2, .h⟩]
        [⟨.r3, .h⟩, ⟨.r4, .h⟩, ⟨.r5, .h⟩, ⟨.K, .c⟩, ⟨.Q, .d⟩]).rank
      = HandRank.royal_flush ∧
    (evaluateHand [⟨.A, .h⟩, ⟨.r2, .h⟩]
        [⟨.r3, .h⟩, ⟨.r4, .h⟩, ⟨.r5, .h⟩, ⟨.K, .c⟩, ⟨.Q, .d⟩]).strength = 1 := by
  refine ⟨by decide, by decide, ?_⟩
  have h : (evaluateHand [⟨.A, .h⟩, ⟨.r2, .h⟩]
      [⟨.r3, .h⟩, ⟨.r4, .h⟩, ⟨.r5, .h⟩, ⟨.K, .c⟩, ⟨.Q, .d⟩]).strength
      = (1.0 : ℚ) := rfl
  rw [h]; norm_num

/-! ### Claim C2: choice of the best straight -/

/-- Claim C2 fails on the code: with hole cards A♥2♣ and board
3♦4♠5♥6♣7♦ the unique rank values contain the 7-high run 3-4-5-6-7,
so the claim requires the reported straight to be that run, the wheel
counting only as the 5-high straight.  The evaluator checks the wheel
before any other run and returns it, and takes the first wheel card in
input order — here the ace — as the straight's high card, yielding
strength 0.65 + (14/14)·0.08 = 0.73, the maximum straight strength. -/
theorem evaluateHand_wheel_bug :
    (evaluateHand [⟨.A, .h⟩, ⟨.r2, .c⟩]
        [⟨.r3, .d⟩, ⟨.r4, .s⟩, ⟨.r5, .h⟩, ⟨.r6, .c⟩, ⟨.r7, .d⟩]).rank
      = HandRank.straight ∧
    (evaluateHand [⟨.A, .h⟩, ⟨.r2, .c⟩]
        [⟨.r3, .d⟩, ⟨.r4, .s⟩, ⟨.r5, .h⟩, ⟨.r6, .c⟩, ⟨.r7, .d⟩]).madeHand.map rankVal
      = [14, 2, 3, 4, 5] ∧
    (evaluateHand [⟨.A, .h⟩, ⟨.r2, .c⟩]
        [⟨.r3, .d⟩, ⟨.r4, .s⟩, ⟨.r5, .h⟩, ⟨.r6, .c⟩, ⟨.r7, .d⟩]).strength
      = 0.73 := by
  refine ⟨by decide, by decide, ?_⟩
  have h : (evaluateHand [⟨.A, .h⟩, ⟨.r2, .c⟩]
      [⟨.r3, .d⟩, ⟨.r4, .s⟩, ⟨.r5, .h⟩, ⟨.r6, .c⟩, ⟨.r7, .d⟩]).strength
      = 0.65 + (((14 : ℕ) : ℚ) / 14) * 0.08 := rfl
  rw [h]; norm_num

/-! ### Claim C8: the made hand realizes the reported category -/

/-- Claim C8 fails on the code: with hole cards 9♠9♥ and board
8♦7♣6♥5♠2♦ the evaluator reports a straight (the 9-8-7-6-5 run), but
builds `madeHand` by filtering the inputs for ranks in the run and
truncating to five cards, which keeps both nines and drops the five —
the returned five cards have rank values 9,9,8,7,6 and do not form a
straight. -/
theorem evaluateHand_madeHand_bug :
    (evaluateHand [⟨.r9, .s⟩, ⟨.r9, .h⟩]
        [⟨.r8, .d⟩, ⟨.r7, .c⟩, ⟨.r6, .h⟩, ⟨.r5, .s⟩, ⟨.r2, .d⟩]).rank
      = HandRank.straight ∧
    (evaluateHand [⟨.r9, .s⟩, ⟨.r9, .h⟩]
        [⟨.r8, .d⟩, ⟨.r7, .c⟩, ⟨.r6, .h⟩, ⟨.r5, .s⟩, ⟨.r2, .d⟩]).madeHand.map rankVal
      = [9, 9, 8, 7, 6] := by
  exact ⟨by decide, by decide⟩

/-! ### Claim C6: the wetness score formula -/

set_option maxHeartbeats 800000 in
/-- Claim C6 holds: for every board of at least three cards the wetness
returned by `analyzeBoard` is the flag-driven sum — 0.35 if monotone
else 0.15 if two-tone, plus 0.25 / 0.2 / 0.1 for straight on board /
open-ended / gutshot, plus 0.1 if connected, minus 0.15 if paired and
another 0.25 if trips, plus (broadwayCount / boardSize)·0.15 — clamped
to the interval [0, 1]. -/
theorem analyzeBoard_wetness_formula (board : List Card)
    (h : 3 ≤ board.length) :
    (analyzeBoard board).wetness =
      max 0 (min 1 (
        (if (analyzeBoard board).isMonotone then (0.35 : ℚ)
         else if (analyzeBoard board).isTwoTone then 0.15 else 0)
      + (if (analyzeBoard board).hasStraightPossible then 0.25
         else if (analyzeBoard board).hasOpenEndedDraw then 0.2
         else if (analyzeBoard board).hasGutshot then 0.1 else 0)
      + (if areConnected (board.map rankVal) 2 then 0.1 else 0)
      - (if (analyzeBoard board).isPaired then 0.15 else 0)
      - (if (analyzeBoard board).isTrips then 0.25 else 0)
      + ((analyzeBoard board).broadwayCount : ℚ) / (board.length : ℚ) * 0.15)) := by
  have h3 : ¬ board.length < 3 := by omega
  simp only [analyzeBoard, if_neg h3]
  generalize (decide (3 ≤ (((countSuitsNum board).map (·.2)).foldl max 0)) &&
    decide (board.length = 3) : Bool) = m
  generalize (decide ((((countSuitsNum board).map (·.2)).foldl max 0) = 2) &&
    decide (board.length = 3) : Bool) = tw
  generalize (countStraightDraws (board.map rankVal)).straight = st
  generalize (countStraightDraws (board.map rankVal)).openEnded = oe
  generalize (countStraightDraws (board.map rankVal)).gutshot = gs
  generalize areConnected (board.map rankVal) 2 = cn
  generalize (decide (2 ≤ (((countRanks board).map (·.2)).foldl max 0)) : Bool) = p
  generalize (decide (3 ≤ (((countRanks board).map (·.2)).foldl max 0)) : Bool) = tr
  generalize ((board.filter (fun c => c.rank ∈ BROADWAY_RANKS)).length : ℚ)
    / (board.length : ℚ) * 0.15 = q
  congr 1
  congr 1
  split_ifs <;> ring

/-- Witness for C6 at the concrete board K♠7♦2♥. -/
theorem analyzeBoard_wetness_formula_witness :
    3 ≤ ([⟨.K, .s⟩, ⟨.r7, .d⟩, ⟨.r2, .h⟩] : List Card).length ∧
    (analyzeBoard [⟨.K, .s⟩, ⟨.r7, .d⟩, ⟨.r2, .h⟩]).wetness =
      max 0 (min 1 (
        (if (analyzeBoard [⟨.K, .s⟩, ⟨.r7, .d⟩, ⟨.r2, .h⟩]).isMonotone then (0.35 : ℚ)
         else if (analyzeBoard [⟨.K, .s⟩, ⟨.r7, .d⟩, ⟨.r2, .h⟩]).isTwoTone then 0.15 else 0)
      + (if (analyzeBoard [⟨.K, .s⟩, ⟨.r7, .d⟩, ⟨.r2, .h⟩]).hasStraightPossible then 0.25
         else if (analyzeBoard [⟨.K, .s⟩, ⟨.r7, .d⟩, ⟨.r2, .h⟩]).hasOpenEndedDraw then 0.2
         else if (analyzeBoard [⟨.K, .s⟩, ⟨.r7, .d⟩, ⟨.r2, .h⟩]).hasGutshot then 0.1 else 0)
      + (if areConnected (([⟨.K, .s⟩, ⟨.r7, .d⟩, ⟨.r2, .h⟩] : List Card).map rankVal) 2
         then 0.1 else 0)
      - (if (analyzeBoard [⟨.K, .s⟩, ⟨.r7, .d⟩, ⟨.r2, .h⟩]).isPaired then 0.15 else 0)
      - (if (analyzeBoard [⟨.K, .s⟩, ⟨.r7, .d⟩, ⟨.r2, .h⟩]).isTrips then 0.25 else 0)
      + ((analyzeBoard [⟨.K, .s⟩, ⟨.r7, .d⟩, ⟨.r2, .h⟩]).broadwayCount : ℚ)
          / (([⟨.K, .s⟩, ⟨.r7, .d⟩, ⟨.r2, .h⟩] : List Card).length : ℚ) * 0.15)) :=
  ⟨by decide, analyzeBoard_wetness_formula [⟨.K, .s⟩, ⟨.r7, .d⟩, ⟨.r2, .h⟩] (by decide)⟩

/-! ### Claim C7: the connectivity flag

The lemmas below characterize `sortDescBy` (a permutation, sorted in
descending key order) and the adjacent-gap scan of `areConnected`. -/

/-- Inserting with `insertDescBy` permutes to consing. -/
theorem insertDescBy_perm (k : α → Nat) (x : α) (l : List α) :
    List.Perm (insertDescBy k x l) (x :: l) := by
  induction l with
  | nil => simp [insertDescBy]
  | cons y ys ih =>
    unfold insertDescBy
    split
    · exact List.Perm.refl _
    · exact (ih.cons y).trans (List.Perm.swap x y ys)

/-- The insertion-sort fold permutes to appending. -/
theorem sortDescBy_fold_perm (k : α → Nat) :
    ∀ (l acc : List α),
      List.Perm (l.foldl (fun a x => insertDescBy k x a) acc) (l ++ acc) := by
  intro l
  induction l with
  | nil => intro acc; simp
  | cons x xs ih =>
    intro acc
    have h1 := ih (insertDescBy k x acc)
    have h2 : List.Perm (xs ++ insertDescBy k x acc) (xs ++ (x :: acc)) :=
      List.Perm.append_left xs (insertDescBy_perm k x acc)
    have h3 : List.Perm (xs ++ (x :: acc)) (x :: (xs ++ acc)) := List.perm_middle
    simpa using (h1.trans h2).trans h3

/-- `sortDescBy` returns a permutation of its input. -/
theorem sortDescBy_perm (k : α → Nat) (l : List α) :
    List.Perm (sortDescBy k l) l := by
  simpa [sortDescBy] using sortDescBy_fold_perm k l []

/-- `insertDescBy` preserves descending sortedness. -/
theorem insertDescBy_pairwise (k : α → Nat) (x : α) {l : List α}
    (h : l.Pairwise (fun a b => k b ≤ k a)) :
    (insertDescBy k x l).Pairwise (fun a b => k b ≤ k a) := by
  induction l with
  | nil => simp [insertDescBy]
  | cons y ys ih =>
    obtain ⟨hy, hys⟩ := List.pairwise_cons.mp h
    unfold insertDescBy
    split
    case isTrue hlt =>
      refine List.pairwise_cons.mpr ⟨?_, h⟩
      intro z hz
      rcases List.mem_cons.mp hz with rfl | hz2
      · exact le_of_lt hlt
      · exact (hy z hz2).trans (le_of_lt hlt)
    case isFalse hge =>
      refine List.pairwise_cons.mpr ⟨?_, ih hys⟩
      intro z hz
      rcases List.mem_cons.mp ((insertDescBy_perm k x ys).mem_iff.mp hz) with rfl | hz2
      · exact le_of_not_lt hge
      · exact hy z hz2

/-- The insertion-sort fold preserves descending sortedness. -/
theorem sortDescBy_fold_pairwise (k : α → Nat) :
    ∀ (l acc : List α), acc.Pairwise (fun a b => k b ≤ k a) →
      (l.foldl (fun a x => insertDescBy k x a) acc).Pairwise
        (fun a b => k b ≤ k a) := by
  intro l
  induction l with
  | nil => intro acc h; simpa using h
  | cons x xs ih =>
    intro acc h
    exact ih (insertDescBy k x acc) (insertDescBy_pairwise k x h)

/-- `sortDescBy` sorts in descending key order. -/
theorem sortDescBy_pairwise (k : α → Nat) (l : List α) :
    (sortDescBy k l).Pairwise (fun a b => k b ≤ k a) :=
  sortDescBy_fold_pairwise k l [] List.Pairwise.nil

/-- From a successful adjacent-gap scan of a descending list one can
extract two entries (at different positions) at distance at most `g`. -/
theorem hasAdjGap_exists {s : List Nat} {g : Nat}
    (hs : s.Pairwise (fun a b => b ≤ a)) (h : hasAdjGap s g = true) :
    ∃ a, a ∈ s ∧ ∃ b, b ∈ s.erase a ∧ b ≤ a ∧ a - b ≤ g := by
  induction s with
  | nil => simp [hasAdjGap] at h
  | cons x rest ih =>
    cases rest with
    | nil => simp [hasAdjGap] at h
    | cons y rest2 =>
      rw [hasAdjGap, Bool.or_eq_true, decide_eq_true_iff] at h
      obtain ⟨hy, hys⟩ := List.pairwise_cons.mp hs
      rcases h with h1 | h2
      · refine ⟨x, List.mem_cons_self x _, y, ?_, hy y (List.mem_cons_self y _), h1⟩
        rw [List.erase_cons_head]
        exact List.mem_cons_self y _
      · obtain ⟨a, ha, b, hb, hba, hg⟩ := ih hys h2
        refine ⟨a, List.mem_cons_of_mem x ha, b, ?_, hba, hg⟩
        by_cases hax : x = a
        · subst hax
          rw [List.erase_cons_head]
          exact List.mem_of_mem_erase hb
        · rw [List.erase_cons_tail]
          · exact List.mem_cons_of_mem x hb
          · simpa using hax

/-- Conversely, two entries of a descending list at distance at most `g`
force a successful adjacent-gap scan. -/
theorem hasAdjGap_of_close : ∀ {s : List Nat} {g a b : Nat},
    s.Pairwise (fun a b => b ≤ a) → a ∈ s → b ∈ s.erase a → b ≤ a →
    a ≤ b + g → hasAdjGap s g = true := by
  intro s
  induction s with
  | nil => intro g a b _ ha _ _ _; simp at ha
  | cons x rest ih =>
    intro g a b hp ha hb hba hclose
    cases rest with
    | nil =>
      have hax : a = x := by simpa using ha
      subst hax
      rw [List.erase_cons_head] at hb
      simp at hb
    | cons y rest2 =>
      rw [hasAdjGap, Bool.or_eq_true, decide_eq_true_iff]
      obtain ⟨hx, hp2⟩ := List.pairwise_cons.mp hp
      by_cases hxy : x - y ≤ g
      · exact Or.inl hxy
      · refine Or.inr ?_
        by_cases hax : a = x
        · subst hax
          rw [List.erase_cons_head] at hb
          have hby : b ≤ y := by
            rcases List.mem_cons.mp hb with rfl | hb2
            · exact le_refl b
            · exact (List.pairwise_cons.mp hp2).1 b hb2
          omega
        · have ha2 : a ∈ y :: rest2 := by
            rcases List.mem_cons.mp ha with rfl | h
            · exact absurd rfl hax
            · exact h
          rw [List.erase_cons_tail] at hb
          · rcases List.mem_cons.mp hb with rfl | hb2
            · have : a ≤ b := hx a ha2
              omega
            · exact ih hp2 ha2 hb2 hba hclose
          · simp
            omega

/-- Two-sided membership swap under `erase`. -/
theorem mem_erase_swap {l : List Nat} {a b : Nat} (ha : a ∈ l)
    (hb : b ∈ l.erase a) : a ∈ l.erase b := by
  by_cases hab : a = b
  · subst hab; exact hb
  · exact (List.mem_erase_of_ne hab).mpr ha

/-- Characterization of `areConnected` with gap 2: it returns true
exactly when two entries at different positions (equal values allowed)
lie within distance two, or an Ace (14) is present together with a value
of at most five. -/
theorem areConnected_iff (ranks : List Nat) :
    (areConnected ranks 2 = true ↔
      ((∃ a ∈ ranks, ∃ b ∈ ranks.erase a, b ≤ a + 2 ∧ a ≤ b + 2) ∨
        (14 ∈ ranks ∧ ∃ r ∈ ranks, r ≤ 5))) := by
  have hperm := sortDescBy_perm id ranks
  have hpw : (sortDescBy id ranks).Pairwise (fun a b => b ≤ a) := by
    simpa using sortDescBy_pairwise id ranks
  unfold areConnected
  simp only [Bool.or_eq_true, Bool.and_eq_true, decide_eq_true_iff,
    List.any_eq_true]
  constructor
  · rintro (hadj | ⟨h14, r, hr, hr5⟩)
    · obtain ⟨a, ha, b, hb, hba, hg⟩ := hasAdjGap_exists hpw hadj
      exact Or.inl ⟨a, hperm.mem_iff.mp ha, b, (hperm.erase a).mem_iff.mp hb,
        by omega, by omega⟩
    · exact Or.inr ⟨hperm.mem_iff.mp h14, r, hperm.mem_iff.mp hr, hr5⟩
  · rintro (⟨a, ha, b, hb, h1, h2⟩ | ⟨h14, r, hr, hr5⟩)
    · refine Or.inl ?_
      rcases le_total b a with hba | hab
      · exact hasAdjGap_of_close hpw (hperm.mem_iff.mpr ha)
          ((hperm.erase a).mem_iff.mpr hb) hba h2
      · exact hasAdjGap_of_close hpw
          (hperm.mem_iff.mpr (List.mem_of_mem_erase hb))
          ((hperm.erase b).mem_iff.mpr (mem_erase_swap ha hb)) hab h1
    · exact Or.inr ⟨hperm.mem_iff.mpr h14, r, hperm.mem_iff.mpr hr, hr5⟩

/-- Claim C7 fails as stated: the connectivity flag computed by
`analyzeBoard` (the call `areConnected(rankValues, 2)`) is true on the
paired board K♠K♥2♦, because the two kings are adjacent in the sorted
rank list and differ by 0 ≤ 2 — yet no two *distinct* board ranks are
within two of each other and there is no Ace with a low card, so the
claimed characterization says the flag should be false. -/
theorem areConnected_distinct_ranks_counterexample :
    areConnected (([⟨.K, .s⟩, ⟨.K, .h⟩, ⟨.r2, .d⟩] : List Card).map rankVal) 2
      = true ∧
    ¬((∃ a ∈ ([⟨.K, .s⟩, ⟨.K, .h⟩, ⟨.r2, .d⟩] : List Card).map rankVal,
        ∃ b ∈ ([⟨.K, .s⟩, ⟨.K, .h⟩, ⟨.r2, .d⟩] : List Card).map rankVal,
          a ≠ b ∧ b ≤ a + 2 ∧ a ≤ b + 2) ∨
      (14 ∈ ([⟨.K, .s⟩, ⟨.K, .h⟩, ⟨.r2, .d⟩] : List Card).map rankVal ∧
        ∃ r ∈ ([⟨.K, .s⟩, ⟨.K, .h⟩, ⟨.r2, .d⟩] : List Card).map rankVal,
          r ≤ 5)) :=
  ⟨by decide, by decide⟩

/-- Claim C7, amended: for every board of at least three cards the
connectivity flag computed by `analyzeBoard` is true if and only if the
ranks of two board cards at different positions (equal rank values
allowed, so paired boards count) differ by at most 2, or the board
contains both an Ace and a rank of at most 5. -/
theorem areConnected_characterization (board : List Card)
    (_h : 3 ≤ board.length) :
    (areConnected (board.map rankVal) 2 = true ↔
      ((∃ a ∈ board.map rankVal, ∃ b ∈ (board.map rankVal).erase a,
          b ≤ a + 2 ∧ a ≤ b + 2) ∨
        (14 ∈ board.map rankVal ∧ ∃ r ∈ board.map rankVal, r ≤ 5))) :=
  areConnected_iff (board.map rankVal)

/-- Witness for the amended C7 at the board K♠K♥2♦. -/
theorem areConnected_characterization_witness :
    3 ≤ ([⟨.K, .s⟩, ⟨.K, .h⟩, ⟨.r2, .d⟩] : List Card).length ∧
    (areConnected (([⟨.K, .s⟩, ⟨.K, .h⟩, ⟨.r2, .d⟩] : List Card).map rankVal) 2
        = true ↔
      ((∃ a ∈ ([⟨.K, .s⟩, ⟨.K, .h⟩, ⟨.r2, .d⟩] : List Card).map rankVal,
          ∃ b ∈ (([⟨.K, .s⟩, ⟨.K, .h⟩, ⟨.r2, .d⟩] : List Card).map rankVal).erase a,
            b ≤ a + 2 ∧ a ≤ b + 2) ∨
        (14 ∈ ([⟨.K, .s⟩, ⟨.K, .h⟩, ⟨.r2, .d⟩] : List Card).map rankVal ∧
          ∃ r ∈ ([⟨.K, .s⟩, ⟨.K, .h⟩, ⟨.r2, .d⟩] : List Card).map rankVal,
            r ≤ 5))) :=
  ⟨by decide, areConnected_characterization _ (by decide)⟩

/-! ### Claim C4: monotonicity of the recommendation in hand strength -/

/-- Texture of the monotone flop 9♥8♥2♥ (all fields spelled out as the
analyzer computes them), used to refute claim C4. -/
def monotoneFlopTexture : BoardTexture :=
  { wetness := 0.45, isPaired := false, isTrips := false, isMonotone := true,
    isTwoTone := false, isRainbow := false, hasOpenEndedDraw := false,
    hasGutshot := false, hasStraightPossible := false, hasFlushDraw := true,
    hasFlushPossible := true, highCard := .r9, hasAce := false,
    hasBroadway := false, broadwayCount := 0,
    textureLabel := "Low, Monotone, Connected", dangerLevel := .dangerous }

/-- Claim C4 fails as stated: on a dangerous flush-possible texture,
facing a bet on the river, a weak hand (strength 0.3) is told to call
(the drawing-hand branch) while the stronger medium hand (strength 0.5)
is told to fold (the dangerous-river branch) — raising the hand strength
strictly decreases the aggressiveness of the recommended action. -/
theorem getPostflopRecommendation_not_monotone :
    (0.3 : ℚ) < 0.5 ∧ (0 : ℚ) ≤ 0.3 ∧ (0.5 : ℚ) ≤ 1 ∧
    aggr (getPostflopRecommendation 0.5 monotoneFlopTexture .IP .river true).action
      < aggr (getPostflopRecommendation 0.3 monotoneFlopTexture .IP .river true).action := by
  have h1 : getPostflopRecommendation 0.5 monotoneFlopTexture .IP .river true
      = ⟨.fold, none, 0.55⟩ := by
    norm_num [getPostflopRecommendation, monotoneFlopTexture]
  have h2 : getPostflopRecommendation 0.3 monotoneFlopTexture .IP .river true
      = ⟨.call, none, 0.5⟩ := by
    norm_num [getPostflopRecommendation, monotoneFlopTexture]
  refine ⟨by norm_num, by norm_num, by norm_num, ?_⟩
  rw [h1, h2]
  decide

set_option maxHeartbeats 1600000 in
/-- Claim C4, amended: the exceptions all come from the draw branches
(weak/air hands call or semi-bluff when a flush or straight is possible,
while stronger made hands may fold on dangerous rivers or check), so on
every texture whose flush-possible and straight-possible flags are both
false, the recommended action's aggressiveness (fold < check < call <
bet < raise) is monotone in the hand strength, for any fixed position,
street and facing-bet flag. -/
theorem getPostflopRecommendation_monotone_amended
    (t : BoardTexture) (pos : Position) (street : Street) (fb : Bool)
    (hf : t.hasFlushPossible = false) (hs : t.hasStraightPossible = false)
    (s1 s2 : ℚ) (_h0 : 0 ≤ s1) (_h1 : s2 ≤ 1) (hlt : s1 < s2) :
    aggr (getPostflopRecommendation s1 t pos street fb).action ≤
      aggr (getPostflopRecommendation s2 t pos street fb).action := by
  unfold getPostflopRecommendation
  cases fb <;>
    simp only [hf, hs, Bool.false_eq_true, if_false, ite_false, ite_true,
      false_or, or_false, false_and, and_false, or_self, not_false_iff,
      Bool.true_eq_false] <;>
    split_ifs <;>
    first
      | rfl
      | decide
      | (exfalso; linarith)

/-- Witness for the amended C4 on the canonical empty texture. -/
theorem getPostflopRecommendation_monotone_amended_witness :
    getEmptyTexture.hasFlushPossible = false ∧
    getEmptyTexture.hasStraightPossible = false ∧
    (0 : ℚ) ≤ 0.3 ∧ (0.9 : ℚ) ≤ 1 ∧ (0.3 : ℚ) < 0.9 ∧
    aggr (getPostflopRecommendation 0.3 getEmptyTexture .IP .flop false).action ≤
      aggr (getPostflopRecommendation 0.9 getEmptyTexture .IP .flop false).action :=
  ⟨rfl, rfl, by norm_num, by norm_num, by norm_num,
    getPostflopRecommendation_monotone_amended getEmptyTexture .IP .flop false
      rfl rfl 0.3 0.9 (by norm_num) (by norm_num) (by norm_num)⟩

/-! ### Claim C3: rank category dominates strength -/

/-- Lower end of the strength band of each rank value (helper for C3). -/
def bandLo : Nat → ℚ
  | 1 => 0.05 | 2 => 0.21 | 3 => 0.35 | 4 => 0.51 | 5 => 0.66
  | 6 => 0.76 | 7 => 0.855 | 8 => 0.9 | 9 => 0.955 | 10 => 1 | _ => 0

/-- Upper end of the strength band of each rank value (helper for C3). -/
def bandHi : Nat → ℚ
  | 1 => 0.17 | 2 => 0.32 | 3 => 0.45 | 4 => 0.6 | 5 => 0.73
  | 6 => 0.83 | 7 => 0.89 | 8 => 0.95 | 9 => 0.99 | 10 => 1 | _ => 0

/-- An evaluation is in band when its rank value matches its category's
`HAND_RANK_VALUES` entry, lies in 1..10, and its strength lies between
the band ends of that rank value. -/
def inBand (e : HandEvaluation) : Prop :=
  e.rankValue = HAND_RANK_VALUES e.rank ∧ 1 ≤ e.rankValue ∧
    e.rankValue ≤ 10 ∧ bandLo e.rankValue ≤ e.strength ∧
    e.strength ≤ bandHi e.rankValue

/-- Every rank value lies between 2 and 14. -/
theorem rank_val_bounds (r : Rank) : 2 ≤ RANK_VALUES r ∧ RANK_VALUES r ≤ 14 := by
  cases r <;> exact ⟨by decide, by decide⟩

/-- Rational-cast version of `rank_val_bounds`. -/
theorem rank_val_cast_bounds (r : Rank) :
    (2 : ℚ) ≤ (RANK_VALUES r : ℚ) ∧ (RANK_VALUES r : ℚ) ≤ 14 := by
  obtain ⟨h1, h2⟩ := rank_val_bounds r
  exact ⟨by exact_mod_cast h1, by exact_mod_cast h2⟩

/-- Monotone bound for strengths of the shape `c + v/14 * k`. -/
theorem strength_band_aux {v : ℚ} (a b c k lo hi : ℚ) (ha : a ≤ v) (hb : v ≤ b)
    (hk : 0 ≤ k) (hlo : lo ≤ c + a / 14 * k) (hhi : c + b / 14 * k ≤ hi) :
    lo ≤ c + v / 14 * k ∧ c + v / 14 * k ≤ hi := by
  have h1 : a / 14 * k ≤ v / 14 * k :=
    mul_le_mul_of_nonneg_right (by linarith) hk
  have h2 : v / 14 * k ≤ b / 14 * k :=
    mul_le_mul_of_nonneg_right (by linarith) hk
  exact ⟨by linarith, by linarith⟩

/-- Every partial-hand evaluation is in band. -/
theorem evaluatePartialHand_inBand (holeCards board : List Card) :
    inBand (evaluatePartialHand holeCards board) := by
  simp only [evaluatePartialHand, inBand]
  split_ifs with h4 h3 htp h2
  · exact ⟨rfl, by norm_num, by norm_num, by norm_num [bandLo], by norm_num [bandHi]⟩
  · obtain ⟨hl, hh⟩ := strength_band_aux 2 14 0.5 0.1 (bandLo 4) (bandHi 4)
      (rank_val_cast_bounds _).1 (rank_val_cast_bounds _).2 (by norm_num)
      (by norm_num [bandLo]) (by norm_num [bandHi])
    exact ⟨rfl, by norm_num, by norm_num, hl, hh⟩
  · exact ⟨rfl, by norm_num, by norm_num, by norm_num [bandLo], by norm_num [bandHi]⟩
  · obtain ⟨hl, hh⟩ := strength_band_aux 2 14 0.2 0.12 (bandLo 2) (bandHi 2)
      (rank_val_cast_bounds _).1 (rank_val_cast_bounds _).2 (by norm_num)
      (by norm_num [bandLo]) (by norm_num [bandHi])
    exact ⟨rfl, by norm_num, by norm_num, hl, hh⟩
  · split
    · exact ⟨rfl, by norm_num, by norm_num, by norm_num [bandLo], by norm_num [bandHi]⟩
    · obtain ⟨hl, hh⟩ := strength_band_aux 2 14 0.05 0.12 (bandLo 1) (bandHi 1)
        (rank_val_cast_bounds _).1 (rank_val_cast_bounds _).2 (by norm_num)
        (by norm_num [bandLo]) (by norm_num [bandHi])
      exact ⟨rfl, by norm_num, by norm_num, hl, hh⟩

/-- Introduction rule for `inBand` on a record literal. -/
theorem inBand_mk (rk : HandRank) (rv : Nat) (s : ℚ) (d : String)
    (ks : List Rank) (mh : List Card) (h1 : rv = HAND_RANK_VALUES rk)
    (h2 : 1 ≤ rv) (h3 : rv ≤ 10) (h4 : bandLo rv ≤ s) (h5 : s ≤ bandHi rv) :
    inBand ⟨rk, rv, s, d, ks, mh⟩ :=
  ⟨h1, h2, h3, h4, h5⟩

/-- Band bounds for a strength driven by a rank value. -/
theorem band_bounds_aux (rk : Rank) (c k lo hi : ℚ) (hk : 0 ≤ k)
    (hlo : lo ≤ c + 2 / 14 * k) (hhi : c + 14 / 14 * k ≤ hi) :
    lo ≤ c + (RANK_VALUES rk : ℚ) / 14 * k ∧
      c + (RANK_VALUES rk : ℚ) / 14 * k ≤ hi :=
  strength_band_aux 2 14 c k lo hi (rank_val_cast_bounds rk).1
    (rank_val_cast_bounds rk).2 hk hlo hhi

/-- The straight-flush branch record is in band: its high card is not an
ace (the royal-flush guard), so its value is at most 13. -/
theorem sf_inBand (sif : List Card)
    (h14 : ¬ rankVal (sif.headD defaultCard) = 14) :
    inBand
      { rank := .straight_flush, rankValue := 9,
        strength := 0.95 + ((rankVal (sif.headD defaultCard) : ℚ)) / 14 * 0.04,
        description := "Straight Flush, " ++
          rankStr (sif.headD defaultCard).rank ++ " high",
        kickers := [], madeHand := sif } := by
  have h13 : (RANK_VALUES (sif.headD defaultCard).rank : ℚ) ≤ 13 := by
    have h0 := rank_val_bounds (sif.headD defaultCard).rank
    have h' : ¬ RANK_VALUES (sif.headD defaultCard).rank = 14 := h14
    have : RANK_VALUES (sif.headD defaultCard).rank ≤ 13 := by omega
    exact_mod_cast this
  have h2 : (2 : ℚ) ≤ (RANK_VALUES (sif.headD defaultCard).rank : ℚ) :=
    (rank_val_cast_bounds _).1
  obtain ⟨hl, hh⟩ := strength_band_aux 2 13 0.95 0.04 (bandLo 9) (bandHi 9)
    h2 h13 (by norm_num) (by norm_num [bandLo]) (by norm_num [bandHi])
  exact inBand_mk _ _ _ _ _ _ rfl (by norm_num) (by norm_num) hl hh

/-- Every evaluation returned by `evaluateHand` is in band. -/
theorem evaluateHand_inBand (holeCards board : List Card) :
    inBand (evaluateHand holeCards board) := by
  simp only [evaluateHand]
  split
  · exact evaluatePartialHand_inBand holeCards board
  · split
    next r heq =>
      split at heq
      · simp at heq
      · split at heq
        · simp at heq
        · split at heq
          · cases heq
            exact inBand_mk _ _ _ _ _ _ rfl (by norm_num) (by norm_num)
              (by norm_num [bandLo]) (by norm_num [bandHi])
          · next h14 =>
            cases heq
            exact sf_inBand _ h14
    next heq =>
      split
      next q heq2 =>
        exact inBand_mk _ _ _ _ _ _ rfl (by norm_num) (by norm_num)
          (band_bounds_aux _ 0.9 0.05 (bandLo 8) (bandHi 8) (by norm_num)
            (by norm_num [bandLo]) (by norm_num [bandHi])).1
          (band_bounds_aux _ 0.9 0.05 (bandLo 8) (bandHi 8) (by norm_num)
            (by norm_num [bandLo]) (by norm_num [bandHi])).2
      next heq2 =>
        split
        next trips pair heq3 =>
          exact inBand_mk _ _ _ _ _ _ rfl (by norm_num) (by norm_num)
            (band_bounds_aux _ 0.85 0.04 (bandLo 7) (bandHi 7) (by norm_num)
              (by norm_num [bandLo]) (by norm_num [bandHi])).1
            (band_bounds_aux _ 0.85 0.04 (bandLo 7) (bandHi 7) (by norm_num)
              (by norm_num [bandLo]) (by norm_num [bandHi])).2
        next heq3 =>
          split
          next fl =>
            exact inBand_mk _ _ _ _ _ _ rfl (by norm_num) (by norm_num)
              (band_bounds_aux _ 0.75 0.08 (bandLo 6) (bandHi 6) (by norm_num)
                (by norm_num [bandLo]) (by norm_num [bandHi])).1
              (band_bounds_aux _ 0.75 0.08 (bandLo 6) (bandHi 6) (by norm_num)
                (by norm_num [bandLo]) (by norm_num [bandHi])).2
          next =>
            split
            next st =>
              exact inBand_mk _ _ _ _ _ _ rfl (by norm_num) (by norm_num)
                (band_bounds_aux _ 0.65 0.08 (bandLo 5) (bandHi 5) (by norm_num)
                  (by norm_num [bandLo]) (by norm_num [bandHi])).1
                (band_bounds_aux _ 0.65 0.08 (bandLo 5) (bandHi 5) (by norm_num)
                  (by norm_num [bandLo]) (by norm_num [bandHi])).2
            next =>
              split
              next trips heq4 =>
                exact inBand_mk _ _ _ _ _ _ rfl (by norm_num) (by norm_num)
                  (band_bounds_aux _ 0.5 0.1 (bandLo 4) (bandHi 4) (by norm_num)
                    (by norm_num [bandLo]) (by norm_num [bandHi])).1
                  (band_bounds_aux _ 0.5 0.1 (bandLo 4) (bandHi 4) (by norm_num)
                    (by norm_num [bandLo]) (by norm_num [bandHi])).2
              next heq4 =>
                split_ifs with hp2 hp1
                · exact inBand_mk _ _ _ _ _ _ rfl (by norm_num) (by norm_num)
                    (band_bounds_aux _ 0.35 0.1 (bandLo 3) (bandHi 3) (by norm_num)
                      (by norm_num [bandLo]) (by norm_num [bandHi])).1
                    (band_bounds_aux _ 0.35 0.1 (bandLo 3) (bandHi 3) (by norm_num)
                      (by norm_num [bandLo]) (by norm_num [bandHi])).2
                · exact inBand_mk _ _ _ _ _ _ rfl (by norm_num) (by norm_num)
                    (band_bounds_aux _ 0.2 0.12 (bandLo 2) (bandHi 2) (by norm_num)
                      (by norm_num [bandLo]) (by norm_num [bandHi])).1
                    (band_bounds_aux _ 0.2 0.12 (bandLo 2) (bandHi 2) (by norm_num)
                      (by norm_num [bandLo]) (by norm_num [bandHi])).2
                · exact inBand_mk _ _ _ _ _ _ rfl (by norm_num) (by norm_num)
                    (band_bounds_aux _ 0.05 0.12 (bandLo 1) (bandHi 1) (by norm_num)
                      (by norm_num [bandLo]) (by norm_num [bandHi])).1
                    (band_bounds_aux _ 0.05 0.12 (bandLo 1) (bandHi 1) (by norm_num)
                      (by norm_num [bandLo]) (by norm_num [bandHi])).2

/-- The strength bands of distinct rank values are strictly separated. -/
theorem band_sep {i j : Nat} (h1 : 1 ≤ i) (h10 : j ≤ 10) (hij : i < j) :
    bandHi i < bandLo j := by
  have hi10 : i ≤ 9 := by omega
  have hj1 : 2 ≤ j := by omega
  interval_cases i <;> interval_cases j <;> norm_num [bandHi, bandLo]

/-- Claim C3 holds: `rankValue` always equals the 1-10 value that
`HAND_RANK_VALUES` assigns to the returned category (high_card = 1 up to
royal_flush = 10), and across any two results of `evaluateHand` —
including the fewer-than-five-cards partial path — a strictly larger
`rankValue` forces a strictly larger `strength`: every category's
strength band lies strictly above every lower category's band. -/
theorem evaluateHand_rank_dominates_strength :
    (∀ holeCards board : List Card,
      (evaluateHand holeCards board).rankValue
        = HAND_RANK_VALUES (evaluateHand holeCards board).rank) ∧
    (∀ hole1 board1 hole2 board2 : List Card,
      (evaluateHand hole2 board2).rankValue
          < (evaluateHand hole1 board1).rankValue →
        (evaluateHand hole2 board2).strength
          < (evaluateHand hole1 board1).strength) := by
  constructor
  · intro hole board
    exact (evaluateHand_inBand hole board).1
  · intro h1 b1 h2 b2 hlt
    obtain ⟨_, hi1, hj1, hlo1, hhi1⟩ := evaluateHand_inBand h1 b1
    obtain ⟨_, hi2, hj2, hlo2, hhi2⟩ := evaluateHand_inBand h2 b2
    have := band_sep hi2 hj1 hlt
    linarith

/-- Witness for C3: a pair of aces (rank value 2) against a jack-high
board with no pair (rank value 1). -/
theorem evaluateHand_rank_dominates_strength_witness :
    (evaluateHand [⟨.r2, .s⟩, ⟨.r3, .d⟩] [⟨.r7, .c⟩, ⟨.r9, .h⟩, ⟨.J, .h⟩]).rankValue
      < (evaluateHand [⟨.A, .s⟩, ⟨.A, .d⟩] [⟨.K, .s⟩, ⟨.Q, .d⟩, ⟨.J, .c⟩]).rankValue ∧
    (evaluateHand [⟨.r2, .s⟩, ⟨.r3, .d⟩] [⟨.r7, .c⟩, ⟨.r9, .h⟩, ⟨.J, .h⟩]).strength
      < (evaluateHand [⟨.A, .s⟩, ⟨.A, .d⟩] [⟨.K, .s⟩, ⟨.Q, .d⟩, ⟨.J, .c⟩]).strength :=
  ⟨by decide, evaluateHand_rank_dominates_strength.2 _ _ _ _ (by decide)⟩


/-! ### Claims C5, C9, C10: the equity calculator -/

/-- Each vs.-random iteration bumps exactly one counter. -/
theorem vsRandomStep_sum (shuffle : Nat → List Card → List Card)
    (heroHand board remainingDeck : List Card) (cardsNeeded : Nat)
    (acc : Tally) (i : Nat) :
    (vsRandomStep shuffle heroHand board remainingDeck cardsNeeded acc i).wins +
      (vsRandomStep shuffle heroHand board remainingDeck cardsNeeded acc i).ties +
      (vsRandomStep shuffle heroHand board remainingDeck cardsNeeded acc i).losses
      = acc.wins + acc.ties + acc.losses + 1 := by
  simp only [vsRandomStep]
  split_ifs <;> simp <;> omega

/-- After n vs.-random iterations the counters sum to n. -/
theorem vsRandomLoop_sum (shuffle : Nat → List Card → List Card)
    (heroHand board remainingDeck : List Card) (cardsNeeded : Nat) :
    ∀ n, (vsRandomLoop shuffle heroHand board remainingDeck cardsNeeded n).wins +
      (vsRandomLoop shuffle heroHand board remainingDeck cardsNeeded n).ties +
      (vsRandomLoop shuffle heroHand board remainingDeck cardsNeeded n).losses = n := by
  intro n
  induction n with
  | zero => rfl
  | succ m ih =>
    unfold vsRandomLoop at ih ⊢
    rw [List.range_succ, List.foldl_append, List.foldl_cons, List.foldl_nil]
    rw [vsRandomStep_sum]
    omega

/-- Each vs.-range iteration preserves the counter sum and grows the
valid-sample count by at most one. -/
theorem vsRangeStep_invariant (shuffle : Nat → List Card → List Card)
    (pick : Nat → Nat) (heroHand board knownCards remainingDeck : List Card)
    (expandedRange : List (List Card)) (cardsNeeded : Nat)
    (acc : TallyV) (i : Nat)
    (h : acc.wins + acc.ties + acc.losses = acc.valid) :
    (vsRangeStep shuffle pick heroHand board knownCards remainingDeck
        expandedRange cardsNeeded acc i).wins +
      (vsRangeStep shuffle pick heroHand board knownCards remainingDeck
        expandedRange cardsNeeded acc i).ties +
      (vsRangeStep shuffle pick heroHand board knownCards remainingDeck
        expandedRange cardsNeeded acc i).losses
      = (vsRangeStep shuffle pick heroHand board knownCards remainingDeck
          expandedRange cardsNeeded acc i).valid ∧
    (vsRangeStep shuffle pick heroHand board knownCards remainingDeck
        expandedRange cardsNeeded acc i).valid ≤ acc.valid + 1 := by
  simp only [vsRangeStep]
  split_ifs <;> simp <;> omega

/-- After n vs.-range iterations the counters sum to the valid-sample
count, which is at most n. -/
theorem vsRangeLoop_invariant (shuffle : Nat → List Card → List Card)
    (pick : Nat → Nat) (heroHand board knownCards remainingDeck : List Card)
    (expandedRange : List (List Card)) (cardsNeeded : Nat) :
    ∀ n, (vsRangeLoop shuffle pick heroHand board knownCards remainingDeck
        expandedRange cardsNeeded n).wins +
      (vsRangeLoop shuffle pick heroHand board knownCards remainingDeck
        expandedRange cardsNeeded n).ties +
      (vsRangeLoop shuffle pick heroHand board knownCards remainingDeck
        expandedRange cardsNeeded n).losses
      = (vsRangeLoop shuffle pick heroHand board knownCards remainingDeck
          expandedRange cardsNeeded n).valid ∧
      (vsRangeLoop shuffle pick heroHand board knownCards remainingDeck
        expandedRange cardsNeeded n).valid ≤ n := by
  intro n
  induction n with
  | zero => exact ⟨rfl, le_refl 0⟩
  | succ m ih =>
    unfold vsRangeLoop at ih ⊢
    rw [List.range_succ, List.foldl_append, List.foldl_cons, List.foldl_nil]
    obtain ⟨h1, h2⟩ := vsRangeStep_invariant shuffle pick heroHand board
      knownCards remainingDeck expandedRange cardsNeeded
      ((List.range m).foldl (vsRangeStep shuffle pick heroHand board knownCards
        remainingDeck expandedRange cardsNeeded) ⟨0, 0, 0, 0⟩) m ih.1
    omega

/-- The invariant claimed for an `EquityResult`: counters sum to the
sample count, samples stay within the requested iterations, and the
equity is (wins + ties/2) / samples, hence in [0, 1]. -/
def EquityOk (r : EquityResult) (iterations : Nat) : Prop :=
  r.wins + r.ties + r.losses = r.samples ∧ r.samples ≤ iterations ∧
    r.equity = ((r.wins : ℚ) + 0.5 * (r.ties : ℚ)) / (r.samples : ℚ) ∧
    0 ≤ r.equity ∧ r.equity ≤ 1

/-- Arithmetic core: the tallied equity matches the claimed formula and
lies in [0, 1]. -/
theorem equity_formula_ok {w t l n : Nat} (hsum : w + t + l = n) (hn : 1 ≤ n) :
    ((w : ℚ) + (t : ℚ) * 0.5) / (n : ℚ)
        = ((w : ℚ) + 0.5 * (t : ℚ)) / (n : ℚ) ∧
      0 ≤ ((w : ℚ) + (t : ℚ) * 0.5) / (n : ℚ) ∧
      ((w : ℚ) + (t : ℚ) * 0.5) / (n : ℚ) ≤ 1 := by
  have hc : (w : ℚ) + (t : ℚ) + (l : ℚ) = (n : ℚ) := by exact_mod_cast hsum
  have hw : (0 : ℚ) ≤ (w : ℚ) := Nat.cast_nonneg w
  have ht : (0 : ℚ) ≤ (t : ℚ) := Nat.cast_nonneg t
  have hl : (0 : ℚ) ≤ (l : ℚ) := Nat.cast_nonneg l
  have hn' : (1 : ℚ) ≤ (n : ℚ) := by exact_mod_cast hn
  refine ⟨by ring, ?_, ?_⟩
  · apply div_nonneg (by linarith) (by linarith)
  · rw [div_le_one (by linarith)]
    linarith

/-- The vs.-random calculator satisfies the claimed invariants. -/
theorem calculateEquityVsRandom_ok (sqrtA : ℚ → ℚ)
    (shuffle : Nat → List Card → List Card) (heroHand board : List Card)
    (iterations : Nat) (h : 1 ≤ iterations) :
    EquityOk (calculateEquityVsRandom sqrtA shuffle heroHand board iterations)
      iterations := by
  have hsum := vsRandomLoop_sum shuffle heroHand board
    (removeCards createDeck (heroHand ++ board)) (5 - board.length) iterations
  obtain ⟨hform, h0, h1⟩ := equity_formula_ok hsum h
  simp only [calculateEquityVsRandom, EquityOk]
  exact ⟨hsum, le_refl _, hform, h0, h1⟩

/-- The vs.-range calculator satisfies the claimed invariants (in each
of its fallback branches and in its own sampling branch). -/
theorem calculateEquityVsRange_ok (sqrtA : ℚ → ℚ)
    (shuffle : Nat → List Card → List Card) (pick : Nat → Nat)
    (heroHand board : List Card) (villainRange : List String)
    (iterations : Nat) (h : 1 ≤ iterations) :
    EquityOk (calculateEquityVsRange sqrtA shuffle pick heroHand board
      villainRange iterations) iterations := by
  simp only [calculateEquityVsRange]
  split_ifs with hb1 hb2 hb3
  · exact calculateEquityVsRandom_ok sqrtA shuffle heroHand board iterations h
  · exact calculateEquityVsRandom_ok sqrtA shuffle heroHand board iterations h
  · exact calculateEquityVsRandom_ok sqrtA shuffle heroHand board iterations h
  · obtain ⟨hsum, hle⟩ := vsRangeLoop_invariant shuffle pick heroHand board
      (heroHand ++ board) (removeCards createDeck (heroHand ++ board))
      (expandRange villainRange (heroHand ++ board)) (5 - board.length)
      iterations
    have hv1 : 1 ≤ (vsRangeLoop shuffle pick heroHand board
        (heroHand ++ board) (removeCards createDeck (heroHand ++ board))
        (expandRange villainRange (heroHand ++ board)) (5 - board.length)
        iterations).valid := Nat.one_le_iff_ne_zero.mpr hb3
    obtain ⟨hform, h0, h1⟩ := equity_formula_ok hsum hv1
    exact ⟨hsum, hle, hform, h0, h1⟩

/-- Claim C5 holds, for every outcome of the randomness (arbitrary
shuffle and pick oracles) and any sqrt implementation: both equity
calculators return wins + ties + losses = samples ≤ iterations and
equity = (wins + 0.5·ties) / samples, which lies in [0, 1]. -/
theorem equityResult_invariants (sqrtA : ℚ → ℚ)
    (shuffle : Nat → List Card → List Card) (pick : Nat → Nat)
    (heroHand board : List Card) (villainRange : List String)
    (iterations : Nat) (h : 1 ≤ iterations) :
    EquityOk (calculateEquityVsRandom sqrtA shuffle heroHand board iterations)
        iterations ∧
      EquityOk (calculateEquityVsRange sqrtA shuffle pick heroHand board
        villainRange iterations) iterations :=
  ⟨calculateEquityVsRandom_ok sqrtA shuffle heroHand board iterations h,
    calculateEquityVsRange_ok sqrtA shuffle pick heroHand board villainRange
      iterations h⟩

/-- Witness for C5 with trivial oracles and one iteration. -/
theorem equityResult_invariants_witness :
    1 ≤ 1 ∧
      (EquityOk (calculateEquityVsRandom (fun _ => 0) (fun _ d => d)
          [] [] 1) 1 ∧
        EquityOk (calculateEquityVsRange (fun _ => 0) (fun _ d => d)
          (fun _ => 0) [] [] [] 1) 1) :=
  ⟨le_refl 1, equityResult_invariants (fun _ => 0) (fun _ d => d) (fun _ => 0)
    [] [] [] 1 (le_refl 1)⟩

/-- Claim C9 holds: when the range is empty, its expansion is empty, or
no iteration produced a valid sample, `calculateEquityVsRange` returns
exactly the vs.-random result for the same hero hand, board and
iteration count (same oracles), signalling no error. -/
theorem calculateEquityVsRange_fallback (sqrtA : ℚ → ℚ)
    (shuffle : Nat → List Card → List Card) (pick : Nat → Nat)
    (heroHand board : List Card) (villainRange : List String)
    (iterations : Nat)
    (h : villainRange = [] ∨
      expandRange villainRange (heroHand ++ board) = [] ∨
      (vsRangeLoop shuffle pick heroHand board (heroHand ++ board)
        (removeCards createDeck (heroHand ++ board))
        (expandRange villainRange (heroHand ++ board)) (5 - board.length)
        iterations).valid = 0) :
    calculateEquityVsRange sqrtA shuffle pick heroHand board villainRange
        iterations
      = calculateEquityVsRandom sqrtA shuffle heroHand board iterations := by
  simp only [calculateEquityVsRange]
  split_ifs with hb1 hb2 hb3
  · rfl
  · rfl
  · rfl
  · exfalso
    rcases h with h | h | h
    · exact hb1 (by simp [h])
    · exact hb2 (by simp [h])
    · exact hb3 h

/-- Witness for C9 with an empty range. -/
theorem calculateEquityVsRange_fallback_witness :
    (([] : List String) = [] ∨
      expandRange [] ([] ++ []) = [] ∨
      (vsRangeLoop (fun _ d => d) (fun _ => 0) [] [] ([] ++ [])
        (removeCards createDeck ([] ++ []))
        (expandRange [] ([] ++ [])) (5 - ([] : List Card).length)
        7).valid = 0) ∧
    calculateEquityVsRange (fun _ => 0) (fun _ d => d) (fun _ => 0) [] [] [] 7
      = calculateEquityVsRandom (fun _ => 0) (fun _ d => d) [] [] 7 :=
  ⟨Or.inl rfl, calculateEquityVsRange_fallback (fun _ => 0) (fun _ d => d)
    (fun _ => 0) [] [] [] 7 (Or.inl rfl)⟩

/-- Every combo produced by `expandRange` is unblocked with respect to
the blockers it was expanded against. -/
theorem expandRange_not_blocked (range : List String) (blockers : List Card) :
    ∀ combo ∈ expandRange range blockers, isBlocked combo blockers = false := by
  intro combo hc
  simp only [expandRange] at hc
  rw [List.mem_flatMap] at hc
  obtain ⟨hand, _, hmem⟩ := hc
  split at hmem
  · rw [List.mem_filter] at hmem
    simpa using hmem.2
  · split at hmem
    · split at hmem
      · rw [List.mem_filter] at hmem
        simpa using hmem.2
      · rw [List.mem_filter] at hmem
        simpa using hmem.2
    · simp at hmem

/-- A vs.-range iteration whose picked combo is unblocked always counts
as a valid sample. -/
theorem vsRangeStep_unblocked_valid (shuffle : Nat → List Card → List Card)
    (pick : Nat → Nat) (heroHand board knownCards remainingDeck : List Card)
    (expandedRange : List (List Card)) (cardsNeeded : Nat)
    (acc : TallyV) (i : Nat)
    (h : isBlocked (expandedRange.getD (pick i) []) knownCards = false) :
    (vsRangeStep shuffle pick heroHand board knownCards remainingDeck
        expandedRange cardsNeeded acc i).valid = acc.valid + 1 := by
  simp only [vsRangeStep]
  rw [show (List.getD expandedRange (pick i) []).any (fun vc =>
      knownCards.any (fun kc => kc.rank == vc.rank && kc.suit == vc.suit))
      = false from h]
  simp only [Bool.false_eq_true, if_false]
  split_ifs <;> rfl

/-- When every picked combo is unblocked, all n iterations are valid. -/
theorem vsRangeLoop_all_valid (shuffle : Nat → List Card → List Card)
    (pick : Nat → Nat) (heroHand board knownCards remainingDeck : List Card)
    (expandedRange : List (List Card)) (cardsNeeded : Nat)
    (hblock : ∀ i, isBlocked (expandedRange.getD (pick i) []) knownCards
      = false) :
    ∀ n, (vsRangeLoop shuffle pick heroHand board knownCards remainingDeck
      expandedRange cardsNeeded n).valid = n := by
  intro n
  induction n with
  | zero => rfl
  | succ m ih =>
    unfold vsRangeLoop at ih ⊢
    rw [List.range_succ, List.foldl_append, List.foldl_cons, List.foldl_nil]
    rw [vsRangeStep_unblocked_valid _ _ _ _ _ _ _ _ _ _ (hblock m), ih]

/-- Claim C10 holds: the in-loop skip is unreachable — since the range
was expanded against the hero hand plus board as blockers, every picked
combo is already disjoint from them, so with a nonempty expansion and
in-range picks every iteration yields a valid sample and the returned
`samples` equals the requested iteration count. -/
theorem calculateEquityVsRange_full_samples (sqrtA : ℚ → ℚ)
    (shuffle : Nat → List Card → List Card) (pick : Nat → Nat)
    (heroHand board : List Card) (villainRange : List String)
    (iterations : Nat) (hit : 1 ≤ iterations)
    (hne : expandRange villainRange (heroHand ++ board) ≠ [])
    (hpick : ∀ i, pick i
      < (expandRange villainRange (heroHand ++ board)).length) :
    (calculateEquityVsRange sqrtA shuffle pick heroHand board villainRange
      iterations).samples = iterations := by
  have hblock : ∀ i, isBlocked
      ((expandRange villainRange (heroHand ++ board)).getD (pick i) [])
      (heroHand ++ board) = false := by
    intro i
    apply expandRange_not_blocked
    rw [List.getD_eq_getElem _ _ (hpick i)]
    exact List.getElem_mem _
  have hvalid := vsRangeLoop_all_valid shuffle pick heroHand board
    (heroHand ++ board) (removeCards createDeck (heroHand ++ board))
    (expandRange villainRange (heroHand ++ board)) (5 - board.length)
    hblock iterations
  simp only [calculateEquityVsRange]
  split_ifs with hb1 hb2 hb3
  · exfalso
    rw [List.length_eq_zero] at hb1
    exact hne (by simp [hb1, expandRange])
  · exact absurd (List.length_eq_zero.mp hb2) hne
  · omega
  · exact hvalid

/-- Witness for C10 with the pocket-pair token AA and one iteration. -/
theorem calculateEquityVsRange_full_samples_witness :
    1 ≤ 1 ∧ expandRange ["AA"] ([] ++ []) ≠ [] ∧
      (∀ i : Nat, (fun _ : Nat => 0) i
        < (expandRange ["AA"] ([] ++ [])).length) ∧
      (calculateEquityVsRange (fun _ => 0) (fun _ d => d) (fun _ => 0) [] []
        ["AA"] 1).samples = 1 := by
  have hlen : 0 < (expandRange ["AA"] ([] ++ [])).length := by decide
  exact ⟨le_refl 1, by decide, fun _ => hlen,
    calculateEquityVsRange_full_samples (fun _ => 0) (fun _ d => d)
      (fun _ => 0) [] [] ["AA"] 1 (le_refl 1) (by decide) (fun _ => hlen)⟩

